import Mathlib

/-!
A verification development for the supplier-ranking service
(`ranking_engine/api_views.py`).  The API views are embedded shallowly:
scores are rationals, Django querysets become lists, `request.data.get`
values become an explicit `ReqVal` type with Python truthiness.  Components
that live outside the API module (StateMapper, SupplierEnvironment,
RankingAgent, QTable storage) are modelled from the specification and say
so in their doc comments.
-/

namespace SupplierRanking

/-- A value taken from `request.data.get(...)` / `request.query_params.get(...)`:
either absent (`None`), a number, or a string. -/
inductive ReqVal where
  | vnone : ReqVal
  | vnum : ℚ → ReqVal
  | vstr : String → ReqVal
deriving DecidableEq, Repr

/-- Python truthiness of a request value (`None`, `0` and `""` are falsy). -/
def truthy : ReqVal → Bool
  | .vnone => false
  | .vnum q => q != 0
  | .vstr s => s != ""

/-- Python `float(...)` applied to a request value.  Numeric-string parsing is
not modelled (no claim depends on it): non-numbers fail, mirroring the
uncaught `TypeError`/`ValueError` a non-numeric value raises. -/
def pyFloat : ReqVal → Option ℚ
  | .vnum q => some q
  | _ => none

/-- Python `a or b` on request values: `b` when `a` is falsy. -/
def pyOrVal (a b : ReqVal) : ReqVal :=
  if truthy a then a else b

/-- The metrics record built by `FeedbackView.post` (api_views.py lines 59-73). -/
structure Metrics where
  quality_score : ℚ
  delivery_score : ℚ
  price_score : ℚ
  service_score : ℚ
  overall_score : ℚ
deriving DecidableEq, Repr

/-- The metrics computation of `FeedbackView.post` (api_views.py lines 59-73),
after `float(...)` conversion and the `delivery_time_days or 1` default have
been applied to the raw request values.  Each component is written exactly as
in the source: `min(max(..., 1), 10)` clamps, constant `price_score = 7.0`,
and `overall_score` as the 0.25-weighted sum. -/
def metricsFromFeedback (quality_rating delivery_time_days issues : ℚ) : Metrics :=
  let quality := min (max (quality_rating * 10) 1) 10
  let delivery := min (max (10 - min delivery_time_days 10) 1) 10
  let price : ℚ := 7
  let service := min (max (10 - issues * 2) 1) 10
  let overall := quality * (1/4) + delivery * (1/4) + price * (1/4) + service * (1/4)
  ⟨quality, delivery, price, service, overall⟩

/-- C1: every derived metrics record has each component score in [1, 10] and
`overall_score` equal to the equal-weight average of the four components; and
the spec's concrete scenario (quality_rating 0.9, delivery_time_days 2,
issues 0) yields quality 9, delivery 8, price 7, service 10, overall 8.5. -/
theorem feedback_metrics_clamped_and_averaged :
    (∀ qr dtd iss : ℚ,
      let m := metricsFromFeedback qr dtd iss
      (1 ≤ m.quality_score ∧ m.quality_score ≤ 10) ∧
      (1 ≤ m.delivery_score ∧ m.delivery_score ≤ 10) ∧
      (1 ≤ m.price_score ∧ m.price_score ≤ 10) ∧
      (1 ≤ m.service_score ∧ m.service_score ≤ 10) ∧
      m.overall_score = (m.quality_score + m.delivery_score + m.price_score +
        m.service_score) / 4) ∧
    metricsFromFeedback (9/10) 2 0 = ⟨9, 8, 7, 10, 17/2⟩ := by
  constructor
  · intro qr dtd iss
    refine ⟨⟨?_, ?_⟩, ⟨?_, ?_⟩, ⟨?_, ?_⟩, ⟨?_, ?_⟩, ?_⟩
    · exact le_min (le_max_right _ _) (by norm_num)
    · exact min_le_right _ _
    · exact le_min (le_max_right _ _) (by norm_num)
    · exact min_le_right _ _
    · norm_num [metricsFromFeedback]
    · norm_num [metricsFromFeedback]
    · exact le_min (le_max_right _ _) (by norm_num)
    · exact min_le_right _ _
    · simp only [metricsFromFeedback]
      ring
  · show Metrics.mk _ _ _ _ _ = _
    norm_num [metricsFromFeedback]

/-- One persisted `QTableEntry` row: a (state, action) key with the learned
value and its update count (`api.models.QTableEntry`, read through the views). -/
structure QEntry where
  state : String
  action : String
  q_value : ℚ
  update_count : Nat
deriving DecidableEq, Repr

/-- The QTable storage, as the list of persisted entries. -/
def QTable := List QEntry

/-- The key predicate of `QTableEntry.objects.get(state=..., action=...)`. -/
def entryKey (s a : String) (e : QEntry) : Bool :=
  e.state == s && e.action == a

/-- Modelled from the spec: `QTable.get(state, action)` returns the stored
(value, update_count), defaulting to value 0.0 and count 0 on a never-written
key — matching the views' `except QTableEntry.DoesNotExist` fallbacks
(api_views.py lines 186-190 and 286-298). -/
def qget (tab : QTable) (s a : String) : ℚ × Nat :=
  match tab.find? (entryKey s a) with
  | some e => (e.q_value, e.update_count)
  | none => (0, 0)

/-- Modelled from the spec: `QTable.upsert(state, action, new_value)` writes
the value and increments `update_count` for that key; entries are created
lazily on first write with count 1. -/
def upsert (tab : QTable) (s a : String) (v : ℚ) : QTable :=
  match tab with
  | [] => [⟨s, a, v, 1⟩]
  | e :: rest =>
    if entryKey s a e then ⟨s, a, v, e.update_count + 1⟩ :: rest
    else e :: upsert rest s a v

/-- One learning step's inputs: the observed state/action, the reward, the
next state, and the environment's candidate actions at the next state. -/
structure LearnStep where
  state : String
  action : String
  reward : ℚ
  next_state : String
  next_actions : List String
deriving DecidableEq, Repr

/-- Modelled from the spec (§4.4 step 5): `max over a of Q(next_state, a)`
ranging over the next state's candidate actions, treated as 0 when that
set is empty. -/
def maxNextQ (tab : QTable) (s : String) (acts : List String) : ℚ :=
  match acts with
  | [] => 0
  | a :: rest => rest.foldl (fun m b => max m (qget tab s b).1) (qget tab s a).1

/-- Learning rate, fixed configuration per spec §4.4 (α ∈ (0,1]). -/
def alphaCfg : ℚ := 1/10

/-- Discount factor, fixed configuration per spec §4.4 (γ ∈ [0,1]). -/
def gammaCfg : ℚ := 9/10

/-- Modelled from the spec: `RankingAgent.learn` — the Q-learning update
`new_q = old_q + α * (reward + γ * max_next - old_q)` written through
`QTable.upsert`, returning the new value (spec §4.4 steps 5-6). -/
def learnUpdate (α γ : ℚ) (st : LearnStep) (tab : QTable) : ℚ × QTable :=
  let old := (qget tab st.state st.action).1
  let newq := old + α * (st.reward + γ * maxNextQ tab st.next_state st.next_actions - old)
  (newq, upsert tab st.state st.action newq)

/-- Modelled from the spec: `RankingAgent.batch_train` replays a sequence of
iterations; a failing iteration (`none`) is skipped (spec §4.4, §7:
skip-and-continue, log and do not abort), a succeeding one applies the
learning update.  `ManualTrainingView.post` (api_views.py lines 226-252)
invokes it inside a try/except that catches any propagated error, so the
table reached so far is what remains. -/
def batchTrain (α γ : ℚ) (steps : List (Option LearnStep)) (tab : QTable) : QTable :=
  steps.foldl
    (fun t st =>
      match st with
      | none => t
      | some l => (learnUpdate α γ l t).2)
    tab

/-- C3: a failing iteration in batch training is skipped: the run over
`pre ++ [failure] ++ post` equals the run over `pre ++ post`, so the updates
from iterations before (and after) the failure are retained and nothing is
rolled back or aborted. -/
theorem batch_train_skips_failed_iteration (α γ : ℚ)
    (pre post : List (Option LearnStep)) (tab : QTable) :
    batchTrain α γ (pre ++ none :: post) tab = batchTrain α γ (pre ++ post) tab := by
  simp [batchTrain, List.foldl_append]

/-- `find?` misses exactly the keys `upsert` appends fresh entries for:
after upserting an absent key, `qget` sees the new value with count 1. -/
theorem qget_upsert_absent (tab : QTable) (s a : String) (v : ℚ)
    (habs : tab.find? (entryKey s a) = none) :
    qget (upsert tab s a v) s a = (v, 1) := by
  induction tab with
  | nil =>
    simp [upsert, qget, List.find?, entryKey]
  | cons e rest ih =>
    rw [List.find?] at habs
    rcases he : entryKey s a e with _ | _
    · rw [he] at habs
      simp only at habs
      simp only [upsert, he, Bool.false_eq_true, if_false, qget, List.find?, he]
      exact ih habs
    · rw [he] at habs
      simp at habs

/-- The row `QValueView.get` reports for one action (api_views.py lines
283-298): the stored (q_value, update_count), or (0.0, 0) when no entry
exists for the (state, action) pair. -/
def qvalueRow (tab : QTable) (state action : String) : String × ℚ × Nat :=
  (action, qget tab state action)

/-- The `q_values` list `QValueView.get` returns: one row per candidate
action of the supplier's state. -/
def qvalueView (tab : QTable) (state : String) (actions : List String) :
    List (String × ℚ × Nat) :=
  actions.map (qvalueRow tab state)

/-- C6: a (state, action) pair with no stored entry is reported as q_value 0.0
with update_count 0 (absence is a default, not a failure), and it appears that
way in the endpoint's list; an entry explicitly updated to 0.0 instead carries
update_count 1, so the two are distinguishable. -/
theorem qvalue_absent_defaults_to_zero (tab : QTable) (s a : String)
    (actions : List String) (hmem : a ∈ actions)
    (habs : tab.find? (entryKey s a) = none) :
    qvalueRow tab s a = (a, 0, 0) ∧
    (a, (0 : ℚ), 0) ∈ qvalueView tab s actions ∧
    qvalueRow (upsert tab s a 0) s a = (a, 0, 1) := by
  have hrow : qvalueRow tab s a = (a, 0, 0) := by
    simp [qvalueRow, qget, habs]
  refine ⟨hrow, ?_, ?_⟩
  · have := List.mem_map_of_mem (qvalueRow tab s) hmem
    rwa [hrow] at this
  · simp [qvalueRow, qget_upsert_absent tab s a 0 habs]

/-- C6 witness: on the empty table, action "RANK_TIER_1" of state "S" is
reported as (0.0, 0), and writing 0.0 to it yields count 1. -/
theorem qvalue_absent_defaults_to_zero_witness :
    qvalueRow [] "S" "RANK_TIER_1" = ("RANK_TIER_1", 0, 0) ∧
    ("RANK_TIER_1", (0 : ℚ), 0) ∈ qvalueView [] "S" ["RANK_TIER_1"] ∧
    qvalueRow (upsert [] "S" "RANK_TIER_1" 0) "S" "RANK_TIER_1" =
      ("RANK_TIER_1", 0, 1) :=
  qvalue_absent_defaults_to_zero [] "S" "RANK_TIER_1" ["RANK_TIER_1"]
    (by simp) rfl

/-- One element of the `ranked_suppliers` list built by
`SupplierRankingView.get` (api_views.py lines 192-200). -/
structure RankRow where
  supplier_id : Nat
  score : ℚ
  best_action : String
  q_value : ℚ
deriving DecidableEq, Repr

/-- "Comes no later under the sort": descending score.  This is the ordering
`ranked_suppliers.sort(key=lambda x: x["score"], reverse=True)` establishes. -/
def rowGE (a b : RankRow) : Prop := b.score ≤ a.score

instance : DecidableRel rowGE := fun a b =>
  inferInstanceAs (Decidable (b.score ≤ a.score))

instance : IsTotal RankRow rowGE := ⟨fun a b => le_total b.score a.score⟩

instance : IsTrans RankRow rowGE := ⟨fun _ _ _ hab hbc => le_trans hbc hab⟩

/-- The sort of `SupplierRankingView.get` (api_views.py line 202): Python's
`list.sort(key=..., reverse=True)` is a stable sort producing exactly the
descending-by-score arrangement in which equal-score rows keep their input
order; `insertionSort` with the non-strict descending relation produces the
same arrangement. -/
def rankingSort (l : List RankRow) : List RankRow :=
  l.insertionSort rowGE

/-- Rows with any fixed score keep their relative order through one ordered
insertion (no sortedness assumption needed). -/
theorem filter_score_orderedInsert (c : ℚ) (a : RankRow) (l : List RankRow) :
    (List.orderedInsert rowGE a l).filter (fun x => x.score == c) =
      if a.score == c then a :: l.filter (fun x => x.score == c)
      else l.filter (fun x => x.score == c) := by
  induction l with
  | nil =>
    rcases ha : (a.score == c) with _ | _
    · have h : ¬ a.score = c := by simpa using ha
      simp [List.orderedInsert, List.filter, ha, h]
    · have h : a.score = c := by simpa using ha
      simp [List.orderedInsert, List.filter, ha, h]
  | cons x xs ih =>
    by_cases hr : rowGE a x
    · simp only [List.orderedInsert, if_pos hr, List.filter]
      rcases ha : (a.score == c) with _ | _ <;> simp
    · simp only [List.orderedInsert, if_neg hr, List.filter]
      rcases hx : (x.score == c) with _ | _
      · simpa [hx] using ih
      · rcases ha : (a.score == c) with _ | _
        · simpa [ha, hx] using ih
        · exfalso
          apply hr
          show x.score ≤ a.score
          have hxc : x.score = c := by simpa using hx
          have hac : a.score = c := by simpa using ha
          rw [hxc, hac]

/-- Stability of the embedded sort: for every score value, the subsequence of
rows carrying that score is unchanged by `rankingSort`. -/
theorem rankingSort_stable (c : ℚ) (l : List RankRow) :
    (rankingSort l).filter (fun x => x.score == c) =
      l.filter (fun x => x.score == c) := by
  induction l with
  | nil => rfl
  | cons x xs ih =>
    show (List.orderedInsert rowGE x (List.insertionSort rowGE xs)).filter _ = _
    rw [filter_score_orderedInsert]
    rcases hx : (x.score == c) with _ | _
    · simpa [hx, List.filter] using ih
    · simpa [hx, List.filter] using ih

/-- The ordering C2 claims: score strictly descending, ties by ascending
supplier id. -/
def claimedOrder (a b : RankRow) : Prop :=
  b.score < a.score ∨ (a.score = b.score ∧ a.supplier_id ≤ b.supplier_id)

instance : DecidableRel claimedOrder := fun a b =>
  inferInstanceAs (Decidable (b.score < a.score ∨
    (a.score = b.score ∧ a.supplier_id ≤ b.supplier_id)))

/-- C2 counterexample: two equal-score suppliers listed as ids 2 then 1 are
returned in that same order by the view's sort, so the output is not ordered
by ascending supplier id within the tie. -/
theorem ranking_tiebreak_counterexample :
    rankingSort [⟨2, 5, "RANK_TIER_1", 0⟩, ⟨1, 5, "RANK_TIER_1", 0⟩] =
      [⟨2, 5, "RANK_TIER_1", 0⟩, ⟨1, 5, "RANK_TIER_1", 0⟩] ∧
    ¬ List.Sorted claimedOrder
        (rankingSort [⟨2, 5, "RANK_TIER_1", 0⟩, ⟨1, 5, "RANK_TIER_1", 0⟩]) := by
  constructor
  · rfl
  · intro h
    have := List.rel_of_sorted_cons h ⟨1, 5, "RANK_TIER_1", 0⟩ (by simp [rankingSort])
    rcases this with h1 | ⟨_, h2⟩
    · exact absurd h1 (by norm_num)
    · exact absurd h2 (by norm_num)

/-- C2 amended: the returned supplier list is sorted by overall score
descending and is a permutation of the computed rows, but ties are broken by
the rows' original (candidate-list) order — the sort is stable — not by
ascending supplier id. -/
theorem ranking_sorted_descending_stable (l : List RankRow) :
    List.Sorted rowGE (rankingSort l) ∧
    (rankingSort l).Perm l ∧
    ∀ c : ℚ, (rankingSort l).filter (fun x => x.score == c) =
      l.filter (fun x => x.score == c) :=
  ⟨List.sorted_insertionSort rowGE l, List.perm_insertionSort rowGE l,
    fun c => rankingSort_stable c l⟩

/-- Char-list matcher: does the second list start with the first?  (The
embedding of Python's `str.startswith`, written over `String.data` so that
concrete instances evaluate in the kernel.) -/
def leadsWith : List Char → List Char → Bool
  | [], _ => true
  | _ :: _, [] => false
  | c :: cs, d :: ds => c == d && leadsWith cs ds

/-- Python's `s.startswith(p)`. -/
def strStartsWith (s p : String) : Bool := leadsWith p.data s.data

/-- A supplier directory record as the views consume it: optional name and
city fields at top level and under the nested `user` object. -/
structure Supplier where
  company_name : Option String
  name : Option String
  user_name : Option String
  city : Option String
  user_city : Option String
deriving DecidableEq, Repr

/-- The request fields `FeedbackView.post` extracts (api_views.py lines
34-40); `order_accuracy` is extracted but never used and is omitted.
`issues` carries the `.get('issues', 0)` default, so an omitted field
arrives as `vnum 0`. -/
structure FbRequest where
  supplier_id : ReqVal
  product_id : ReqVal
  city : ReqVal
  delivery_time_days : ReqVal
  quality_rating : ReqVal
  issues : ReqVal
deriving DecidableEq, Repr

/-- The external collaborators one feedback request consults, as oracle
inputs: the supplier-directory lookup result, and the environment's candidate
actions, reward and next state (SupplierEnvironment is outside this module;
spec §4.2). -/
structure FbExt where
  supplier : Option Supplier
  actions : List String
  reward : ℚ
  next_state : String
  next_actions : List String
deriving Repr

/-- The possible responses of `FeedbackView.post`.  `typeError` stands for
the uncaught exception a non-numeric field raises in `float(...)`. -/
inductive FbResponse where
  | missingFields : FbResponse
  | supplierNotFound : FbResponse
  | noSuitableAction : FbResponse
  | typeError : FbResponse
  | ok : ℚ → String → String → FbResponse
deriving DecidableEq, Repr

/-- Modelled from the spec (§3, §4.1): binning one component score into a
small ordered set of levels; the concrete thresholds are unspecified in the
spec ("open question", §9) and chosen here as documented constants. -/
def levelOf (q : ℚ) : String :=
  if q < 4 then "LOW" else if q < 7 then "MEDIUM" else "HIGH"

/-- Modelled from the spec (§4.1): `StateMapper.get_state_from_metrics` —
a total, deterministic mapping from the four component scores to a named
discrete state. -/
def get_state_from_metrics (m : Metrics) : String :=
  "Q_" ++ levelOf m.quality_score ++ "_D_" ++ levelOf m.delivery_score ++
    "_P_" ++ levelOf m.price_score ++ "_S_" ++ levelOf m.service_score

/-- `FeedbackView.post` (api_views.py lines 32-129): validate required
fields by truthiness, look up the supplier, build the clamped metrics,
derive the state, pick the first candidate action named `RANK_TIER_*`
(lines 91-101), and run the learning update; each early exit leaves the
QTable untouched. -/
def feedbackPost (req : FbRequest) (ext : FbExt) (tab : QTable) :
    FbResponse × QTable :=
  if !(truthy req.supplier_id && truthy req.product_id &&
      truthy req.quality_rating) then
    (.missingFields, tab)
  else
    match ext.supplier with
    | none => (.supplierNotFound, tab)
    | some _ =>
      match pyFloat req.quality_rating,
          pyFloat (pyOrVal req.delivery_time_days (.vnum 1)),
          pyFloat req.issues with
      | some qr, some dtd, some iss =>
        let m := metricsFromFeedback qr dtd iss
        let state := get_state_from_metrics m
        match ext.actions.find? (fun a => strStartsWith a "RANK_TIER_") with
        | none => (.noSuitableAction, tab)
        | some action =>
          let r := learnUpdate alphaCfg gammaCfg
            ⟨state, action, ext.reward, ext.next_state, ext.next_actions⟩ tab
          (.ok r.1 state action, r.2)
      | _, _, _ => (.typeError, tab)

/-- C4: a feedback request whose supplier id does not resolve in the
supplier directory fails with the supplier-not-found error before any
learning step, leaving the QTable unchanged. -/
theorem feedback_unknown_supplier_no_update (req : FbRequest) (ext : FbExt)
    (tab : QTable)
    (hv : (truthy req.supplier_id && truthy req.product_id &&
      truthy req.quality_rating) = true)
    (hs : ext.supplier = none) :
    feedbackPost req ext tab = (.supplierNotFound, tab) := by
  simp [feedbackPost, hv, hs]

/-- C4 witness: a concrete well-formed feedback request whose supplier
lookup returns absent is answered with supplier-not-found and an unchanged
(empty) table. -/
theorem feedback_unknown_supplier_no_update_witness :
    feedbackPost ⟨.vnum 1, .vnum 2, .vnone, .vnum 2, .vnum 1, .vnum 0⟩
      ⟨none, ["RANK_TIER_1"], 0, "S", []⟩ [] = (.supplierNotFound, []) :=
  feedback_unknown_supplier_no_update _ _ _ (by decide) rfl

/-- `find?` returns the first element past a prefix of misses. -/
theorem find?_of_forall_not {α : Type} (p : α → Bool) (pre : List α) (a : α)
    (post : List α) (hpre : ∀ b ∈ pre, p b = false) (ha : p a = true) :
    (pre ++ a :: post).find? p = some a := by
  induction pre with
  | nil => simp [List.find?_cons_of_pos, ha]
  | cons x xs ih =>
    have hx : p x = false := hpre x (by simp)
    rw [List.cons_append, List.find?_cons_of_neg _ (by simp [hx])]
    exact ih fun b hb => hpre b (by simp [hb])

/-- C5: during feedback processing the learning action is the first
candidate action (in the environment's order) whose name starts with
"RANK_TIER_"; when no candidate action is so named, the request fails with
the no-suitable-action error and the QTable is not updated. -/
theorem feedback_first_rank_tier_action (req : FbRequest) (ext : FbExt)
    (tab : QTable) (sup : Supplier) (qr dtd iss : ℚ)
    (hv : (truthy req.supplier_id && truthy req.product_id &&
      truthy req.quality_rating) = true)
    (hs : ext.supplier = some sup)
    (hq : pyFloat req.quality_rating = some qr)
    (hd : pyFloat (pyOrVal req.delivery_time_days (.vnum 1)) = some dtd)
    (hi : pyFloat req.issues = some iss) :
    ((∀ a ∈ ext.actions, strStartsWith a "RANK_TIER_" = false) →
      feedbackPost req ext tab = (.noSuitableAction, tab)) ∧
    (∀ pre act post, ext.actions = pre ++ act :: post →
      (∀ b ∈ pre, strStartsWith b "RANK_TIER_" = false) →
      strStartsWith act "RANK_TIER_" = true →
      feedbackPost req ext tab =
        (.ok (learnUpdate alphaCfg gammaCfg
            ⟨get_state_from_metrics (metricsFromFeedback qr dtd iss), act,
              ext.reward, ext.next_state, ext.next_actions⟩ tab).1
          (get_state_from_metrics (metricsFromFeedback qr dtd iss)) act,
         (learnUpdate alphaCfg gammaCfg
            ⟨get_state_from_metrics (metricsFromFeedback qr dtd iss), act,
              ext.reward, ext.next_state, ext.next_actions⟩ tab).2)) := by
  constructor
  · intro hnone
    have hfind : ext.actions.find? (fun a => strStartsWith a "RANK_TIER_") = none := by
      rw [List.find?_eq_none]
      intro x hx
      simp [hnone x hx]
    simp [feedbackPost, hv, hs, hq, hd, hi, hfind]
  · intro pre act post heq hpre hact
    have hfind : ext.actions.find? (fun a => strStartsWith a "RANK_TIER_") = some act := by
      rw [heq]
      exact find?_of_forall_not _ pre act post hpre hact
    simp [feedbackPost, hv, hs, hq, hd, hi, hfind]

/-- C5 witness: with candidate actions ["SOMETHING_ELSE"], a concrete
well-formed feedback request is rejected with no-suitable-action and the
(empty) table is unchanged. -/
theorem feedback_first_rank_tier_action_witness :
    feedbackPost ⟨.vnum 1, .vnum 2, .vnone, .vnum 2, .vnum 1, .vnum 0⟩
      ⟨some ⟨none, none, none, none, none⟩, ["SOMETHING_ELSE"], 0, "S", []⟩ []
      = (.noSuitableAction, []) :=
  (feedback_first_rank_tier_action
    ⟨.vnum 1, .vnum 2, .vnone, .vnum 2, .vnum 1, .vnum 0⟩
    ⟨some ⟨none, none, none, none, none⟩, ["SOMETHING_ELSE"], 0, "S", []⟩ []
    ⟨none, none, none, none, none⟩ 1 2 0
    (by decide) rfl rfl rfl rfl).1 (by decide)

/-- The request with every falsy required field literally omitted (`None`). -/
def omitFalsy (req : FbRequest) : FbRequest :=
  { req with
    supplier_id := if truthy req.supplier_id then req.supplier_id else .vnone
    product_id := if truthy req.product_id then req.product_id else .vnone
    quality_rating :=
      if truthy req.quality_rating then req.quality_rating else .vnone }

/-- C9: a feedback request in which supplier_id, product_id or
quality_rating is present but falsy (e.g. quality_rating = 0) is rejected
with the missing-required-fields error, exactly as if the falsy field had
been omitted. -/
theorem feedback_falsy_field_rejected (req : FbRequest) (ext : FbExt)
    (tab : QTable)
    (h : truthy req.supplier_id = false ∨ truthy req.product_id = false ∨
      truthy req.quality_rating = false) :
    feedbackPost req ext tab = (.missingFields, tab) ∧
    feedbackPost (omitFalsy req) ext tab = feedbackPost req ext tab := by
  have hkeep : ∀ v : ReqVal, truthy (if truthy v then v else .vnone) = truthy v := by
    intro v
    rcases hv : truthy v with _ | _
    · simp [hv, truthy]
    · simp [hv]
  have hcond : (truthy req.supplier_id && truthy req.product_id &&
      truthy req.quality_rating) = false := by
    rcases h with h | h | h <;> simp [h]
  have hcond2 : (truthy (omitFalsy req).supplier_id &&
      truthy (omitFalsy req).product_id &&
      truthy (omitFalsy req).quality_rating) = false := by
    simpa [omitFalsy, hkeep] using hcond
  constructor
  · simp [feedbackPost, hcond]
  · simp [feedbackPost, hcond, hcond2]

/-- C9 witness: quality_rating present but equal to 0 (the worst rating) is
rejected as missing, with the same response as the omitted-field request. -/
theorem feedback_falsy_field_rejected_witness :
    feedbackPost ⟨.vnum 1, .vnum 2, .vnone, .vnum 2, .vnum 0, .vnum 0⟩
      ⟨some ⟨none, none, none, none, none⟩, ["RANK_TIER_1"], 0, "S", []⟩ []
      = (.missingFields, []) ∧
    feedbackPost
      (omitFalsy ⟨.vnum 1, .vnum 2, .vnone, .vnum 2, .vnum 0, .vnum 0⟩)
      ⟨some ⟨none, none, none, none, none⟩, ["RANK_TIER_1"], 0, "S", []⟩ []
      = feedbackPost ⟨.vnum 1, .vnum 2, .vnone, .vnum 2, .vnum 0, .vnum 0⟩
        ⟨some ⟨none, none, none, none, none⟩, ["RANK_TIER_1"], 0, "S", []⟩ [] :=
  feedback_falsy_field_rejected _ _ _ (Or.inr (Or.inr (by decide)))

/-- Substring test over char lists: does the needle occur anywhere in the
haystack?  (The embedding of Django's `__contains` lookup.) -/
def hasSubL (needle : List Char) : List Char → Bool
  | [] => needle.isEmpty
  | d :: ds => leadsWith needle (d :: ds) || hasSubL needle ds

/-- Substring containment on strings: `strContainsSub s sub` holds when
`sub` occurs in `s`. -/
def strContainsSub (s sub : String) : Bool := hasSubL sub.data s.data

/-- "Comes no later under the export's ordering": descending q_value
(`order_by('-q_value')`, api_views.py line 355). -/
def entryGE (a b : QEntry) : Prop := b.q_value ≤ a.q_value

instance : DecidableRel entryGE := fun a b =>
  inferInstanceAs (Decidable (b.q_value ≤ a.q_value))

instance : IsTotal QEntry entryGE := ⟨fun a b => le_total b.q_value a.q_value⟩

instance : IsTrans QEntry entryGE := ⟨fun _ _ _ hab hbc => le_trans hbc hab⟩

/-- `QTableView.get` (api_views.py lines 333-374): apply the state-name
substring, action-name substring and minimum-q_value filters when provided,
order by q_value descending, cap at `limit` (default 100), and return with
the returned-row count and the total count of all stored entries. -/
def qtableExport (tab : List QEntry) (state_name action_name : Option String)
    (min_q_value : Option ℚ) (limit : Option Nat) :
    List QEntry × Nat × Nat :=
  let f := tab.filter fun e =>
    (match state_name with
      | none => true
      | some s => strContainsSub e.state s) &&
    (match action_name with
      | none => true
      | some s => strContainsSub e.action s) &&
    (match min_q_value with
      | none => true
      | some m => decide (m ≤ e.q_value))
  let limited := (f.insertionSort entryGE).take (limit.getD 100)
  (limited, limited.length, tab.length)

/-- C7: every returned Q-table export row matches the provided filters, the
rows are ordered by q_value descending and capped at the given limit
(default 100), and the response carries the returned-row count and the total
count of all stored entries. -/
theorem qtable_export_filtered_sorted_capped (tab : List QEntry)
    (sf af : Option String) (mq : Option ℚ) (lim : Option Nat) :
    (∀ e ∈ (qtableExport tab sf af mq lim).1,
      (∀ s, sf = some s → strContainsSub e.state s = true) ∧
      (∀ s, af = some s → strContainsSub e.action s = true) ∧
      (∀ m, mq = some m → m ≤ e.q_value)) ∧
    List.Sorted entryGE (qtableExport tab sf af mq lim).1 ∧
    (qtableExport tab sf af mq lim).1.length ≤ lim.getD 100 ∧
    (qtableExport tab sf af mq lim).2.1 = (qtableExport tab sf af mq lim).1.length ∧
    (qtableExport tab sf af mq lim).2.2 = tab.length := by
  refine ⟨?_, ?_, ?_, rfl, rfl⟩
  · intro e he
    have hsorted : e ∈ (List.filter _ tab).insertionSort entryGE :=
      List.take_subset _ _ he
    have hf : e ∈ List.filter _ tab :=
      (List.perm_insertionSort entryGE _).subset hsorted
    have hpred := (List.mem_filter.mp hf).2
    rw [Bool.and_eq_true, Bool.and_eq_true] at hpred
    obtain ⟨⟨h1, h2⟩, h3⟩ := hpred
    refine ⟨?_, ?_, ?_⟩
    · intro s hs
      rw [hs] at h1
      exact h1
    · intro s hs
      rw [hs] at h2
      exact h2
    · intro m hm
      rw [hm] at h3
      exact of_decide_eq_true h3
  · exact List.Pairwise.sublist (List.take_sublist _ _)
      (List.sorted_insertionSort entryGE _)
  · exact List.length_take_le _ _

/-- Python truthiness of an optional string (`None` and `""` are falsy). -/
def strTruthy : Option String → Bool
  | some s => s != ""
  | none => false

/-- Python `a or b` over optional strings. -/
def pyOrStr (a b : Option String) : Option String :=
  if strTruthy a then a else b

/-- The city fallback chain of `SupplierRankingView.get` (api_views.py lines
168-171): `supplier.get("city") or supplier.get("user", {}).get("city")`. -/
def supplierCity (sup : Supplier) : Option String :=
  pyOrStr sup.city sup.user_city

/-- Python `str.lower()`, written over `String.data` so that concrete
instances evaluate in the kernel. -/
def strLower (s : String) : String := String.mk (s.data.map Char.toLower)

/-- The skip condition of the city filter (api_views.py line 172):
`if city and supplier_city and supplier_city.lower() != city.lower()`. -/
def cityExcluded (query supplier_city : Option String) : Bool :=
  strTruthy query && strTruthy supplier_city &&
    (strLower (supplier_city.getD "") != strLower (query.getD ""))

/-- Modelled from the spec (§4.4 ranking mode): the action with the maximum
stored Q-value among the candidates, ties broken by the lowest index in the
candidate order. -/
def argmaxQ (tab : QTable) (state : String) (acts : List String) : String :=
  acts.foldl
    (fun best a =>
      if (qget tab state best).1 < (qget tab state a).1 then a else best)
    (acts.headD "")

/-- Modelled from the spec (§4.2, §9): the reward surfaced in a ranking
result; the precise formula is left open by the spec, chosen here as the
overall score's signed distance from the scale midpoint 5 (monotone in the
supplier's performance). -/
def get_reward (overall : ℚ) : ℚ := overall - 5

/-- Modelled from the spec (§4.4): `RankingAgent.rank_supplier` — derive the
state, pick the max-Q action (or, when exploration is on and the random draw
falls below epsilon, a random candidate), and blend the chosen action's
Q-value with the raw overall score (equal weights, a documented tunable)
into the ranking score.  Returns (action, reward, score). -/
def rank_supplier (tab : QTable) (metrics : Metrics) (acts : List String)
    (exploration : Bool) (eps rnd : ℚ) (rndIdx : Nat) : String × ℚ × ℚ :=
  let state := get_state_from_metrics metrics
  let exploit := argmaxQ tab state acts
  let action :=
    if exploration && decide (rnd < eps) then acts.getD rndIdx exploit
    else exploit
  ((action, get_reward metrics.overall_score,
    ((qget tab state action).1 + metrics.overall_score) / 2))

/-- One candidate supplier of a ranking query: its id, its directory record
(`None` when the lookup fails), its latest metrics, and its candidate
actions. -/
structure RankCand where
  supplier_id : Nat
  record : Option Supplier
  metrics : Metrics
  actions : List String

/-- `SupplierRankingView.get` (api_views.py lines 138-209): skip suppliers
whose lookup fails, apply the city filter, rank each remaining supplier via
the agent with `exploration=False` (lines 176-180) feeding it one draw from
the random stream, and sort the rows by score descending.  `rnd` is the
per-iteration random stream an exploring agent would consume. -/
def rankingView (tab : QTable) (city : Option String) (cands : List RankCand)
    (eps : ℚ) (rnd : Nat → ℚ × Nat) : List RankRow :=
  let rows := cands.enum.filterMap fun p =>
    match p.2.record with
    | none => none
    | some sup =>
      if cityExcluded city (supplierCity sup) then none
      else
        let r := rank_supplier tab p.2.metrics p.2.actions false eps
          (rnd p.1).1 (rnd p.1).2
        some ⟨p.2.supplier_id, r.2.2, r.1,
          (qget tab (get_state_from_metrics p.2.metrics) r.1).1⟩
  rankingSort rows

/-- `filterMap` only depends on the function's values. -/
theorem filterMap_ext {α β : Type} (f g : α → Option β) (h : ∀ a, f a = g a)
    (l : List α) : l.filterMap f = l.filterMap g := by
  induction l with
  | nil => rfl
  | cons x xs ih => simp [List.filterMap_cons, h x, ih]

/-- With exploration off, the agent's result does not depend on epsilon or
on the random draw. -/
theorem rank_supplier_no_exploration (tab : QTable) (m : Metrics)
    (acts : List String) (e1 e2 r1 r2 : ℚ) (i1 i2 : Nat) :
    rank_supplier tab m acts false e1 r1 i1 =
      rank_supplier tab m acts false e2 r2 i2 := by
  simp [rank_supplier]

/-- C8: a live ranking query runs the agent with exploration disabled, so
over the same supplier set and the same QTable snapshot its output — the
full ordered rows with their scores — is independent of the epsilon
configuration and of the random stream: two identical queries coincide. -/
theorem ranking_query_reproducible (tab : QTable) (city : Option String)
    (cands : List RankCand) (e1 e2 : ℚ) (r1 r2 : Nat → ℚ × Nat) :
    rankingView tab city cands e1 r1 = rankingView tab city cands e2 r2 := by
  unfold rankingView
  apply congrArg rankingSort
  apply filterMap_ext
  intro p
  cases hrec : p.2.record with
  | none => simp [hrec]
  | some sup =>
    by_cases hc : cityExcluded city (supplierCity sup) = true
    · simp [hrec, hc]
    · simp only [hrec, Bool.not_eq_true] at hc
      simp [hrec, hc,
        rank_supplier_no_exploration tab p.2.metrics p.2.actions e1 e2
          (r1 p.1).1 (r2 p.1).1 (r1 p.1).2 (r2 p.1).2]

/-- C10: under a city filter, a supplier whose record carries no truthy city
(neither top-level nor nested under `user`) is never excluded — in
particular, with both city fields absent it flows through to the ranked
results — and an excluded supplier always has a recorded non-empty city
whose lowercase form differs from the requested city's. -/
theorem ranking_city_filter_unknown_city_included (q : Option String)
    (sup : Supplier) :
    (strTruthy (supplierCity sup) = false →
      cityExcluded q (supplierCity sup) = false) ∧
    (cityExcluded q (supplierCity sup) = true →
      ∃ c qc, supplierCity sup = some c ∧ c ≠ "" ∧ q = some qc ∧
        strLower c ≠ strLower qc) ∧
    (∀ tab eps rnd sid m acts, sup.city = none → sup.user_city = none →
      (rankingView tab q [⟨sid, some sup, m, acts⟩] eps rnd).map
        RankRow.supplier_id = [sid]) := by
  refine ⟨?_, ?_, ?_⟩
  · intro h
    simp [cityExcluded, h]
  · intro h
    rw [cityExcluded, Bool.and_eq_true, Bool.and_eq_true] at h
    obtain ⟨⟨hq, hsc⟩, hne⟩ := h
    cases hscv : supplierCity sup with
    | none => rw [hscv] at hsc; simp [strTruthy] at hsc
    | some c =>
      cases hqv : q with
      | none => rw [hqv] at hq; simp [strTruthy] at hq
      | some qc =>
        rw [hscv] at hsc hne
        rw [hqv] at hq hne
        refine ⟨c, qc, rfl, ?_, rfl, ?_⟩
        · simpa [strTruthy] using hsc
        · simpa using hne
  · intro tab eps rnd sid m acts hc hu
    have hsc : supplierCity sup = none := by
      simp [supplierCity, pyOrStr, hc, hu, strTruthy]
    have hex : cityExcluded q (supplierCity sup) = false := by
      simp [hsc, cityExcluded, strTruthy]
    simp [rankingView, List.filterMap, hex, rankingSort, List.insertionSort]

/-- C10 witness: a concrete supplier with no city fields is included and
ranked under a city filter for "Paris". -/
theorem ranking_city_filter_unknown_city_included_witness :
    (rankingView [] (some "Paris")
      [⟨7, some ⟨none, none, none, none, none⟩, ⟨9, 8, 7, 10, 17/2⟩,
        ["RANK_TIER_1"]⟩] 0 (fun _ => (0, 0))).map RankRow.supplier_id
      = [7] :=
  (ranking_city_filter_unknown_city_included (some "Paris")
    ⟨none, none, none, none, none⟩).2.2 [] 0 (fun _ => (0, 0)) 7
    ⟨9, 8, 7, 10, 17/2⟩ ["RANK_TIER_1"] rfl rfl

end SupplierRanking
